import Mathlib

/-
Verification of the fakelens SPI protocol emulator (fakelens.cpp).

The program is single-threaded straight-line/loop code whose only observable
behaviour is the sequence of bus and control-line operations it performs.  We
embed it as trace-producing functions: every primitive operation (byte read,
byte write, acknowledgment-line write, body-line wait, delay, SPI-control
register write) becomes an event, and each C++ function becomes a Lean
function from its inputs (including the stream of bytes the body clocks in)
to the list of events it performs, in order.

Machine integers: `uint8` values are modelled as `Nat` reduced mod 256 at
every point where the C++ type truncates (register writes, checksum
accumulation).  The loop bound `nBytes - 1` in `readBytesChecksum` is
computed after C++ integer promotion to `int`, so it is embedded as
`((nBytes : Int) - 1).toNat` iterations.
-/

namespace Fakelens

/-- Observable events of the lens program: bytes clocked in (`readB`) and out
(`writeB`) on the SPI bus, writes to the LENS_ACK line (`ack`), the four
body-ACK waiting primitives of fakelens.cpp lines 35-60 (`wFall`, `wRise`,
`wLow`, `wHigh`), the initial wait for the SLEEP pin (`wSleep`), millisecond
delays, and SPI control register writes (`spcr`). -/
inductive Ev
  | readB (b : Nat)
  | writeB (b : Nat)
  | ack (v : Nat)
  | wFall
  | wRise
  | wLow
  | wHigh
  | wSleep
  | delayMs (n : Nat)
  | spcr (v : Nat)
deriving DecidableEq

/-- Register-level events of `writeByte` (fakelens.cpp lines 80-95): writes to
the SPI data register SPDR, switching the MISO pin to output, and the spin
loop on the SPIF transmission-complete flag. -/
inductive RegEv
  | spdrSet (v : Nat)
  | misoOutput
  | spifSpin
deriving DecidableEq

/-- `writeByte` (fakelens.cpp lines 80-95): load `value` into SPDR, make MISO
an output, spin until SPIF is set, then clear SPIF by writing the sentinel
0xFF back into SPDR (the source comment records that writing 0x00 there was
ineffective).  SPDR is an 8-bit register, hence the mod 256. -/
def writeByte (value : Nat) : List RegEv :=
  [RegEv.spdrSet (value % 256), RegEv.misoOutput, RegEv.spifSpin,
   RegEv.spdrSet 0xFF]

/-- The leading loop of `readBytesChecksum` (fakelens.cpp lines 104-108):
read a byte, toggle LENS_ACK low then high, and add the byte into the uint8
checksum accumulator (wraparound mod 256).  `input j` is the byte the body
clocks in on the j-th read; `i` is the current stream index, `c` the
accumulator, and the last argument the number of remaining iterations.
Returns the emitted trace and the final accumulator. -/
def readLoop (input : Nat → Nat) : Nat → Nat → Nat → List Ev × Nat
  | _, c, 0 => ([], c)
  | i, c, k + 1 =>
    let b := input i % 256
    let r := readLoop input (i + 1) ((c + b) % 256) k
    (Ev.readB b :: Ev.ack 0 :: Ev.ack 1 :: r.1, r.2)

/-- Number of iterations of the `for(uint8 i = 0; i < nBytes - 1; i++)` loop
of fakelens.cpp line 104.  `nBytes` has type `uint8`, so `nBytes - 1` is
computed after integer promotion to `int`: for `nBytes = 0` it is `-1` and
the loop body runs zero times (no unsigned wraparound occurs). -/
def loopIters (nBytes : Nat) : Nat := ((nBytes : Int) - 1).toNat

/-- `readBytesChecksum` (fakelens.cpp lines 100-122): read `nBytes - 1` bytes
with a LENS_ACK low/high toggle after each, read the last byte and drop
LENS_ACK, wait for a falling edge on BODY_ACK, raise LENS_ACK, wait for
BODY_ACK high, then transmit the accumulated mod-256 checksum with
`writeByte`.  At the trace level the byte written by `writeByte` appears as
a single `writeB` event. -/
def readBytesChecksum (nBytes : Nat) (input : Nat → Nat) : List Ev :=
  let k := loopIters nBytes
  let r := readLoop input 0 0 k
  let lastB := input k % 256
  r.1 ++ [Ev.readB lastB, Ev.ack 0, Ev.wFall, Ev.ack 1, Ev.wHigh,
          Ev.writeB ((r.2 + lastB) % 256)]

/-- The payload loop of `writeBytesChecksum` (fakelens.cpp lines 136-142):
wait for BODY_ACK low, toggle LENS_ACK low then high, write `values[i]`, and
add it into the uint8 checksum accumulator.  Out-of-range indices are read
as 0 (`List.getD`); no call in the program indexes out of range. -/
def writeLoop (values : List Nat) : Nat → Nat → Nat → List Ev × Nat
  | _, c, 0 => ([], c)
  | i, c, k + 1 =>
    let v := values.getD i 0 % 256
    let r := writeLoop values (i + 1) ((c + v) % 256) k
    (Ev.wLow :: Ev.ack 0 :: Ev.ack 1 :: Ev.writeB v :: r.1, r.2)

/-- `writeBytesChecksum` (fakelens.cpp lines 125-149): wait for BODY_ACK to
fall, toggle LENS_ACK, write the length byte `nBytes`; then for each payload
byte wait for BODY_ACK low, toggle LENS_ACK, write the byte and accumulate
the checksum; finally a last handshake and the checksum byte. -/
def writeBytesChecksum (nBytes : Nat) (values : List Nat) : List Ev :=
  let r := writeLoop values 0 0 nBytes
  Ev.wFall :: Ev.ack 0 :: Ev.ack 1 :: Ev.writeB (nBytes % 256) ::
    (r.1 ++ [Ev.wLow, Ev.ack 0, Ev.ack 1, Ev.writeB r.2])

/-- `standbyPacket` (fakelens.cpp lines 151-159): a 4-byte framed read
followed by a 31-byte framed write of zeros (the 31-element array has 23
explicit 0x00 initializers, the rest zero-initialized).  Defined in the
source but never called: the call site in the terminal loop is commented
out. -/
def standbyPacket (input : Nat → Nat) : List Ev :=
  readBytesChecksum 4 input ++ writeBytesChecksum 31 (List.replicate 31 0)

/-- First fixed payload of the negotiation (fakelens.cpp line 206). -/
def sendBytes : List Nat := [0x00, 0x0a, 0x10, 0xc4, 0x09]

/-- Second fixed payload of the negotiation (fakelens.cpp lines 232-234). -/
def sendBytes2 : List Nat :=
  [0x00, 0x00, 0x00, 0x01, 0x10, 0x00, 0x00, 0x41,
   0x41, 0x41, 0x32, 0x34, 0x33, 0x38, 0x34, 0x31,
   0x00, 0x00, 0x00, 0x01, 0x11]

/-- SPCR configuration value `(1<<SPE)|(1<<DORD)|(1<<CPOL)|(1<<CPHA)` of
fakelens.cpp lines 27 and 224.  Modelled from the spec: the bit positions
SPE=6, DORD=5, CPOL=3, CPHA=2 come from the AVR header, which is not part of
this repository; the value itself plays no role in any claim. -/
def spcrConfig : Nat := 0x6c

/-- One step of the fixed negotiation script run by `main`
(fakelens.cpp lines 161-262). -/
inductive Step
  | waitSleep
  | bodyHigh
  | bodyFall
  | bodyRise
  | bodyLow
  | ackW (v : Nat)
  | delayMs (n : Nat)
  | rawWriteByte (b : Nat)
  | readFrame (n : Nat)
  | writeFrame (n : Nat) (payload : List Nat)
  | spcrWrite (v : Nat)
  | standby
deriving DecidableEq

/-- The literal step sequence of `main` (fakelens.cpp lines 161-262), in
source order; hardware bring-up (`init`, `setup`) is outside the protocol
and omitted.  The terminal `standby` step is the `while(1){}` loop of lines
259-261, whose body is empty (the `standbyPacket()` call is commented out). -/
def mainScript : List Step :=
  [Step.waitSleep, Step.bodyHigh,
   Step.ackW 1, Step.delayMs 10, Step.ackW 0,
   Step.bodyRise, Step.ackW 1,
   Step.readFrame 4,
   Step.bodyFall, Step.ackW 0, Step.bodyRise, Step.ackW 1,
   Step.delayMs 500,
   Step.ackW 0, Step.bodyLow, Step.ackW 1, Step.bodyRise,
   Step.rawWriteByte 0x00,
   Step.bodyLow, Step.ackW 0, Step.bodyRise, Step.ackW 1,
   Step.readFrame 4,
   Step.writeFrame 5 sendBytes,
   Step.bodyLow, Step.ackW 0, Step.bodyHigh, Step.ackW 1,
   Step.readFrame 4,
   Step.bodyLow, Step.ackW 0, Step.bodyHigh, Step.ackW 1,
   Step.spcrWrite 0, Step.spcrWrite spcrConfig,
   Step.readFrame 4,
   Step.writeFrame 21 sendBytes2,
   Step.bodyLow, Step.ackW 0, Step.bodyHigh, Step.ackW 1,
   Step.readFrame 4,
   Step.writeFrame 2 sendBytes2,
   Step.bodyLow, Step.ackW 0, Step.bodyHigh, Step.ackW 1,
   Step.readFrame 4,
   Step.bodyLow, Step.ackW 0, Step.delayMs 10, Step.ackW 1,
   Step.standby]

/-- Trace of one script step, given the stream `input` of bytes the body
clocks in and the index `idx` of the next unread byte; returns the events
and the updated stream index.  A framed read of length n consumes
`loopIters n + 1` bytes. -/
def stepTrace (input : Nat → Nat) (idx : Nat) : Step → List Ev × Nat
  | Step.waitSleep => ([Ev.wSleep], idx)
  | Step.bodyHigh => ([Ev.wHigh], idx)
  | Step.bodyFall => ([Ev.wFall], idx)
  | Step.bodyRise => ([Ev.wRise], idx)
  | Step.bodyLow => ([Ev.wLow], idx)
  | Step.ackW v => ([Ev.ack v], idx)
  | Step.delayMs n => ([Ev.delayMs n], idx)
  | Step.rawWriteByte b => ([Ev.writeB (b % 256)], idx)
  | Step.readFrame n =>
      (readBytesChecksum n (fun j => input (idx + j)), idx + (loopIters n + 1))
  | Step.writeFrame n p => (writeBytesChecksum n p, idx)
  | Step.spcrWrite v => ([Ev.spcr v], idx)
  | Step.standby => ([], idx)

/-- Trace of a list of script steps, threading the input-stream index. -/
def runSteps (input : Nat → Nat) : List Step → Nat → List Ev
  | [], _ => []
  | s :: rest, idx =>
    let r := stepTrace input idx s
    r.1 ++ runSteps input rest r.2

/-- Trace of one iteration of the terminal `while(1)` loop (fakelens.cpp
lines 259-261): the body is empty, the `standbyPacket()` call being
commented out in the source. -/
def standbyIterTrace : List Ev := []

/-- Trace of `k` iterations of the terminal standby loop. -/
def standbyLoopTrace : Nat → List Ev
  | 0 => []
  | k + 1 => standbyIterTrace ++ standbyLoopTrace k

/-- Trace of the whole program: the negotiation script followed by `k`
iterations of the terminal standby loop. -/
def programTrace (input : Nat → Nat) (k : Nat) : List Ev :=
  runSteps input mainScript 0 ++ standbyLoopTrace k

/-- The bytes transmitted on the wire by a trace: the values of its
`writeB` events, in order. -/
def wireWrites (t : List Ev) : List Nat :=
  t.filterMap fun e =>
    match e with
    | Ev.writeB b => some b
    | _ => none

/-- One handshake cycle followed by one transmitted byte: a body-line wait
`w`, the LENS_ACK low/high toggle, then the byte write. -/
def hsBlock (w : Ev) (b : Nat) : List Ev :=
  [w, Ev.ack 0, Ev.ack 1, Ev.writeB b]

/-- Concatenation of handshake-prefixed byte writes, one per listed byte. -/
def hsBlocks (w : Ev) : List Nat → List Ev
  | [] => []
  | b :: bs => hsBlock w b ++ hsBlocks w bs

/-- Trace of one leading-loop iteration of `readBytesChecksum`: the byte
read and the LENS_ACK low/high toggle. -/
def readBlock (b : Nat) : List Ev := [Ev.readB b, Ev.ack 0, Ev.ack 1]

/-- Concatenation of per-byte read blocks. -/
def readBlocks : List Nat → List Ev
  | [] => []
  | b :: bs => readBlock b ++ readBlocks bs

/-- The `k` bytes `values[i] … values[i+k-1]`, each truncated to 8 bits. -/
def byteSlice (values : List Nat) : Nat → Nat → List Nat
  | _, 0 => []
  | i, k + 1 => values.getD i 0 % 256 :: byteSlice values (i + 1) k

/-- The `k` bytes the body clocks in starting at stream index `i`, each
truncated to 8 bits by the receive register. -/
def streamBytes (input : Nat → Nat) : Nat → Nat → List Nat
  | _, 0 => []
  | i, k + 1 => input i % 256 :: streamBytes input (i + 1) k

/-- Event shape: erases the byte value carried by `readB` and `writeB`
events, keeping everything else.  Two traces with equal images under
`evKind` perform the same operations in the same order and differ at most
in transmitted byte values. -/
def evKind : Ev → Ev
  | Ev.readB _ => Ev.readB 0
  | Ev.writeB _ => Ev.writeB 0
  | e => e

/-- Lengths of the framed reads of a script, in order. -/
def readFrameLengths (s : List Step) : List Nat :=
  s.filterMap fun st =>
    match st with
    | Step.readFrame n => some n
    | _ => none

/-- Payload lengths of the framed writes of a script, in order. -/
def writeFrameLengths (s : List Step) : List Nat :=
  s.filterMap fun st =>
    match st with
    | Step.writeFrame n _ => some n
    | _ => none

/-- Documented precondition of `readBytesChecksum` (fakelens.cpp line 98:
"Number of bytes to read.  Must be greater than zero."). -/
def readBytesChecksumPre (nBytes : Nat) : Prop := 0 < nBytes

/-- Shifting the start index past the head of the value list. -/
theorem byteSlice_cons_shift (v : Nat) (values : List Nat) :
    ∀ k i, byteSlice (v :: values) (i + 1) k = byteSlice values i k := by
  intro k
  induction k with
  | zero => intro i; rfl
  | succ k ih =>
    intro i
    simp [byteSlice, ih (i + 1)]

/-- Slicing a whole list of bytes returns the list itself. -/
theorem byteSlice_eq_self :
    ∀ P : List Nat, (∀ b ∈ P, b < 256) → byteSlice P 0 P.length = P := by
  intro P
  induction P with
  | nil => intro _; rfl
  | cons p ps ih =>
    intro hb
    have hp : p < 256 := hb p (List.mem_cons_self p ps)
    have h1 : byteSlice (p :: ps) (0 + 1) ps.length = byteSlice ps 0 ps.length :=
      byteSlice_cons_shift p ps ps.length 0
    calc byteSlice (p :: ps) 0 (p :: ps).length
        = p % 256 :: byteSlice (p :: ps) (0 + 1) ps.length := rfl
      _ = p :: byteSlice ps 0 ps.length := by rw [h1, Nat.mod_eq_of_lt hp]
      _ = p :: ps := by rw [ih (fun b hm => hb b (List.mem_cons_of_mem p hm))]

/-- The payload loop of `writeBytesChecksum` emits one handshake-prefixed
byte write per iteration. -/
theorem writeLoop_fst (values : List Nat) :
    ∀ k i c, (writeLoop values i c k).1 = hsBlocks Ev.wLow (byteSlice values i k) := by
  intro k
  induction k with
  | zero => intro i c; rfl
  | succ k ih =>
    intro i c
    simp [writeLoop, byteSlice, hsBlocks, hsBlock, ih]

/-- The payload loop's uint8 accumulator equals the mod-256 sum of the bytes
written. -/
theorem writeLoop_snd (values : List Nat) :
    ∀ k i c, c < 256 →
      (writeLoop values i c k).2 = (c + (byteSlice values i k).sum) % 256 := by
  intro k
  induction k with
  | zero =>
    intro i c hc
    simp [writeLoop, byteSlice, Nat.mod_eq_of_lt hc]
  | succ k ih =>
    intro i c hc
    have h2 : (c + values.getD i 0 % 256) % 256 < 256 := Nat.mod_lt _ (by norm_num)
    simp only [writeLoop, byteSlice, List.sum_cons]
    rw [ih (i + 1) _ h2]
    omega

/-- `wireWrites` distributes over trace concatenation. -/
theorem wireWrites_append (s t : List Ev) :
    wireWrites (s ++ t) = wireWrites s ++ wireWrites t := by
  simp [wireWrites, List.filterMap_append]

/-- A run of handshake-prefixed writes puts exactly the listed bytes on the
wire. -/
theorem wireWrites_hsBlocks_wLow :
    ∀ bs : List Nat, wireWrites (hsBlocks Ev.wLow bs) = bs := by
  intro bs
  induction bs with
  | nil => rfl
  | cons b bs ih =>
    rw [hsBlocks, wireWrites_append, ih]
    rfl

/-- Read blocks put nothing on the wire. -/
theorem wireWrites_readBlocks :
    ∀ bs : List Nat, wireWrites (readBlocks bs) = [] := by
  intro bs
  induction bs with
  | nil => rfl
  | cons b bs ih =>
    rw [readBlocks, wireWrites_append, ih]
    rfl

/-- The leading loop of `readBytesChecksum` emits one read block per byte
received. -/
theorem readLoop_fst (input : Nat → Nat) :
    ∀ k i c, (readLoop input i c k).1 = readBlocks (streamBytes input i k) := by
  intro k
  induction k with
  | zero => intro i c; rfl
  | succ k ih =>
    intro i c
    simp [readLoop, streamBytes, readBlocks, readBlock, ih]

/-- The read loop's uint8 accumulator equals the mod-256 sum of the bytes
received. -/
theorem readLoop_snd (input : Nat → Nat) :
    ∀ k i c, c < 256 →
      (readLoop input i c k).2 = (c + (streamBytes input i k).sum) % 256 := by
  intro k
  induction k with
  | zero =>
    intro i c hc
    simp [readLoop, streamBytes, Nat.mod_eq_of_lt hc]
  | succ k ih =>
    intro i c hc
    have h2 : (c + input i % 256) % 256 < 256 := Nat.mod_lt _ (by norm_num)
    simp only [readLoop, streamBytes, List.sum_cons]
    rw [ih (i + 1) _ h2]
    omega

/-- Peeling the last byte off a received slice. -/
theorem streamBytes_succ (input : Nat → Nat) :
    ∀ k i, streamBytes input i (k + 1) =
      streamBytes input i k ++ [input (i + k) % 256] := by
  intro k
  induction k with
  | zero => intro i; simp [streamBytes]
  | succ k ih =>
    intro i
    have h : i + 1 + k = i + (k + 1) := by omega
    calc streamBytes input i (k + 1 + 1)
        = input i % 256 :: streamBytes input (i + 1) (k + 1) := rfl
      _ = input i % 256 ::
            (streamBytes input (i + 1) k ++ [input (i + 1 + k) % 256]) := by rw [ih]
      _ = streamBytes input i (k + 1) ++ [input (i + (k + 1)) % 256] := by rw [h]; rfl

/-- The shape of the read loop's trace does not depend on the received byte
values. -/
theorem readLoop_kind (i1 i2 : Nat → Nat) :
    ∀ k a b c d,
      ((readLoop i1 a c k).1).map evKind = ((readLoop i2 b d k).1).map evKind := by
  intro k
  induction k with
  | zero => intro a b c d; rfl
  | succ k ih =>
    intro a b c d
    simp only [readLoop, List.map_cons, evKind]
    rw [ih (a + 1) (b + 1) ((c + i1 a % 256) % 256) ((d + i2 b % 256) % 256)]

/-- The shape of a framed read's trace does not depend on the received byte
values. -/
theorem readBytesChecksum_kind (n : Nat) (i1 i2 : Nat → Nat) :
    (readBytesChecksum n i1).map evKind = (readBytesChecksum n i2).map evKind := by
  simp [readBytesChecksum, evKind, readLoop_kind i1 i2 (loopIters n) 0 0 0 0]

/-- The input-stream index advance of a script step does not depend on the
received byte values. -/
theorem stepTrace_idx (i1 i2 : Nat → Nat) (idx : Nat) (s : Step) :
    (stepTrace i1 idx s).2 = (stepTrace i2 idx s).2 := by
  cases s <;> rfl

/-- The shape of a script step's trace does not depend on the received byte
values. -/
theorem stepTrace_kind (i1 i2 : Nat → Nat) (idx : Nat) (s : Step) :
    ((stepTrace i1 idx s).1).map evKind = ((stepTrace i2 idx s).1).map evKind := by
  cases s
  case readFrame n =>
    exact readBytesChecksum_kind n (fun j => i1 (idx + j)) (fun j => i2 (idx + j))
  all_goals rfl

/-- The shape of a script run's trace does not depend on the received byte
values. -/
theorem runSteps_kind (i1 i2 : Nat → Nat) :
    ∀ (L : List Step) (idx : Nat),
      (runSteps i1 L idx).map evKind = (runSteps i2 L idx).map evKind := by
  intro L
  induction L with
  | nil => intro idx; rfl
  | cons s rest ih =>
    intro idx
    simp only [runSteps, List.map_append]
    rw [stepTrace_kind i1 i2 idx s, stepTrace_idx i1 i2 idx s, ih]

/-- The terminal standby loop emits no events, however long it runs. -/
theorem standbyLoopTrace_nil : ∀ k, standbyLoopTrace k = [] := by
  intro k
  induction k with
  | zero => rfl
  | succ k ih => simp [standbyLoopTrace, standbyIterTrace, ih]

/-- Claim C1: for every n with 0 ≤ n ≤ 255 and every payload P of n bytes,
`writeBytesChecksum` transmits exactly n+2 bytes on the wire, in order: the
length byte n, the n payload bytes in their given order, and one checksum
byte equal to the mod-256 sum of the payload bytes (length byte excluded);
one handshake cycle (body-line wait plus LENS_ACK low-then-high toggle)
precedes each transmitted byte. -/
theorem writeFrame_wire (n : Nat) (P : List Nat)
    (hn : n ≤ 255) (hlen : P.length = n) (hb : ∀ b ∈ P, b < 256) :
    writeBytesChecksum n P =
        hsBlock Ev.wFall n ++ hsBlocks Ev.wLow P ++ hsBlock Ev.wLow (P.sum % 256) ∧
    wireWrites (writeBytesChecksum n P) = n :: (P ++ [P.sum % 256]) ∧
    (wireWrites (writeBytesChecksum n P)).length = n + 2 := by
  have hs : byteSlice P 0 n = P := by
    rw [← hlen]; exact byteSlice_eq_self P hb
  have h256 : n % 256 = n := Nat.mod_eq_of_lt (by omega)
  have hfst : (writeLoop P 0 0 n).1 = hsBlocks Ev.wLow P := by
    rw [writeLoop_fst, hs]
  have hsnd : (writeLoop P 0 0 n).2 = P.sum % 256 := by
    rw [writeLoop_snd P n 0 0 (by norm_num), hs, Nat.zero_add]
  have htrace : writeBytesChecksum n P =
      hsBlock Ev.wFall n ++ hsBlocks Ev.wLow P ++ hsBlock Ev.wLow (P.sum % 256) := by
    simp only [writeBytesChecksum, hfst, hsnd, h256, hsBlock]
    simp
  have hwire : wireWrites (writeBytesChecksum n P) = n :: (P ++ [P.sum % 256]) := by
    rw [htrace, wireWrites_append, wireWrites_append, wireWrites_hsBlocks_wLow]
    rfl
  refine ⟨htrace, hwire, ?_⟩
  rw [hwire]
  simp [hlen]

/-- Witness for claim C1 at n = 3, P = [1, 2, 3]. -/
theorem writeFrame_wire_w :
    writeBytesChecksum 3 [1, 2, 3] =
        hsBlock Ev.wFall 3 ++ hsBlocks Ev.wLow [1, 2, 3] ++
          hsBlock Ev.wLow ([1, 2, 3].sum % 256) ∧
    wireWrites (writeBytesChecksum 3 [1, 2, 3]) =
        3 :: ([1, 2, 3] ++ [[1, 2, 3].sum % 256]) ∧
    (wireWrites (writeBytesChecksum 3 [1, 2, 3])).length = 3 + 2 :=
  writeFrame_wire 3 [1, 2, 3] (by decide) (by decide) (by decide)

/-- Claim C2: for every n with 1 ≤ n ≤ 255 and every stream of received
bytes, `readBytesChecksum` transmits back exactly one byte, the mod-256 sum
of all n received bytes — the final, n-th, byte included. -/
theorem readFrame_checksum (n : Nat) (input : Nat → Nat)
    (h1 : 1 ≤ n) (h2 : n ≤ 255) :
    wireWrites (readBytesChecksum n input) = [(streamBytes input 0 n).sum % 256] := by
  obtain ⟨k, rfl⟩ : ∃ k, n = k + 1 := ⟨n - 1, by omega⟩
  have hk : loopIters (k + 1) = k := by simp only [loopIters]; omega
  have hsum : (streamBytes input 0 (k + 1)).sum =
      (streamBytes input 0 k).sum + input k % 256 := by
    rw [streamBytes_succ]
    simp
  simp only [readBytesChecksum, hk]
  rw [wireWrites_append, readLoop_fst, wireWrites_readBlocks,
    readLoop_snd input k 0 0 (by norm_num)]
  simp only [List.nil_append, wireWrites, List.filterMap_cons, hsum]
  simp only [List.filterMap_nil, List.cons.injEq, and_true]
  omega

/-- Witness for claim C2 at n = 2 with received bytes 10, 11. -/
theorem readFrame_checksum_w :
    wireWrites (readBytesChecksum 2 (fun i => i + 10)) =
      [(streamBytes (fun i => i + 10) 0 2).sum % 256] :=
  readFrame_checksum 2 (fun i => i + 10) (by decide) (by decide)

/-- Claim C3 (counterexample): the frame `{0x00, 0x0a, 0x10, 0xc4, 0x09}`
written by `main` does not put checksum byte 0xdd on the wire as the claim
states: the mod-256 sum of the payload is 0xe7, not 0xdd. -/
theorem scenario2_checksum_ne :
    wireWrites (writeBytesChecksum 5 sendBytes) ≠
      [5, 0x00, 0x0a, 0x10, 0xc4, 0x09, 0xdd] := by decide

/-- Claim C3 (amended): when `main` writes the 5-byte frame
`{0x00, 0x0a, 0x10, 0xc4, 0x09}`, the peer receives length byte 5, the 5
payload bytes, then a checksum byte equal to
(0x00 + 0x0a + 0x10 + 0xc4 + 0x09) mod 256 = 0xe7. -/
theorem scenario2_checksum_actual :
    Step.writeFrame 5 sendBytes ∈ mainScript ∧
    wireWrites (writeBytesChecksum 5 sendBytes) =
      [5, 0x00, 0x0a, 0x10, 0xc4, 0x09,
       (0x00 + 0x0a + 0x10 + 0xc4 + 0x09) % 256] ∧
    (0x00 + 0x0a + 0x10 + 0xc4 + 0x09) % 256 = 0xe7 := by decide

/-- Claim C4 (counterexample): calling `readBytesChecksum` with n = 0 is not
an underflowing, ill-defined loop: the promoted loop bound gives zero
iterations (not 255), and the call behaves exactly like n = 1. -/
theorem readFrame_zero_defined :
    loopIters 0 = 0 ∧ loopIters 0 ≠ 255 ∧
    readBytesChecksum 0 (fun j => j) = readBytesChecksum 1 (fun j => j) := by decide

/-- Claim C4 (amended): `readBytesChecksum` with n = 0 violates the source's
documented precondition (nBytes must be greater than zero), but the loop
bound does not underflow: after integer promotion `nBytes - 1` evaluates to
-1, the per-byte loop runs zero times, and the call is well defined,
behaving identically to n = 1. -/
theorem readFrame_zero_contract (input : Nat → Nat) :
    ¬ readBytesChecksumPre 0 ∧ loopIters 0 = 0 ∧
    readBytesChecksum 0 input = readBytesChecksum 1 input := by
  have h0 : loopIters 0 = 0 := by decide
  have h1 : loopIters 1 = 0 := by decide
  refine ⟨by simp [readBytesChecksumPre], h0, ?_⟩
  simp only [readBytesChecksum, h0, h1]

/-- Claim C5 (counterexample): the negotiation script of `main` contains a
framed write of payload length 2 (fakelens.cpp line 245), a length other
than the claimed 5 and 21. -/
theorem negotiation_write_length_two :
    Step.writeFrame 2 sendBytes2 ∈ mainScript ∧ (2 : Nat) ≠ 5 ∧ (2 : Nat) ≠ 21 := by
  decide

/-- Claim C5 (amended): in the fixed negotiation script every framed read
has length 4, and the framed writes have payload lengths 5, 21 and 2, in
that order — no framed write of any other length occurs. -/
theorem negotiation_frame_lengths :
    readFrameLengths mainScript = [4, 4, 4, 4, 4, 4] ∧
    writeFrameLengths mainScript = [5, 21, 2] := by decide

/-- Claim C6: `readBytesChecksum` with n = 1 performs exactly one byte read
and goes directly to the falling-edge wait and checksum reply; the per-byte
low-then-high LENS_ACK toggle of the leading loop runs zero times, so no
ready-line raise occurs between the single read and the reply handshake. -/
theorem readFrame_one_byte (input : Nat → Nat) :
    readBytesChecksum 1 input =
      [Ev.readB (input 0 % 256), Ev.ack 0, Ev.wFall, Ev.ack 1, Ev.wHigh,
       Ev.writeB (input 0 % 256)] ∧
    loopIters 1 = 0 := by
  have h1 : loopIters 1 = 0 := by decide
  have hm : input 0 % 256 % 256 = input 0 % 256 := by omega
  refine ⟨?_, h1⟩
  simp [readBytesChecksum, h1, readLoop, hm]

/-- Claim C7: framed reads and the whole session script complete and accept
the received bytes unconditionally: the trace of `readBytesChecksum` and of
the full program has exactly the same shape (same operations, same order,
same length) for any two received byte streams, so no received checksum is
ever compared against a recomputed value and a corrupted exchange is
silently accepted, producing no error event or behavioural change. -/
theorem checksum_never_verified (n k : Nat) (i1 i2 : Nat → Nat) :
    (readBytesChecksum n i1).map evKind = (readBytesChecksum n i2).map evKind ∧
    (programTrace i1 k).map evKind = (programTrace i2 k).map evKind := by
  refine ⟨readBytesChecksum_kind n i1 i2, ?_⟩
  simp only [programTrace, List.map_append, standbyLoopTrace_nil]
  rw [runSteps_kind i1 i2 mainScript 0]

/-- Claim C8: once the script reaches the terminal standby state it performs
no further bus or protocol activity: the standby loop's body is empty (the
documented `standbyPacket` exchange is commented out, a disabled no-op), so
for every number k of further iterations the program trace is unchanged;
`standby` is the last step of the script. -/
theorem standby_idle (input : Nat → Nat) (k : Nat) :
    standbyIterTrace = ([] : List Ev) ∧
    standbyLoopTrace k = [] ∧
    programTrace input k = programTrace input 0 ∧
    mainScript.getLast? = some Step.standby := by
  refine ⟨rfl, standbyLoopTrace_nil k, ?_, by decide⟩
  simp [programTrace, standbyLoopTrace_nil]

/-- Claim C9: for every input byte, `writeByte` first loads the value into
the transmit register, waits for transmission-complete, and then clears the
completion flag by writing the fixed non-zero sentinel 0xFF (not zero) back
into the register; this sentinel write happens on every call. -/
theorem writeByte_sentinel_clear (value : Nat) :
    writeByte value =
      [RegEv.spdrSet (value % 256), RegEv.misoOutput, RegEv.spifSpin,
       RegEv.spdrSet 0xFF] ∧
    (0xFF : Nat) ≠ 0 :=
  ⟨rfl, by decide⟩

/-- Claim C10: `readBytesChecksum` with n = 0 behaves identically to n = 1:
the loop bound `nBytes - 1` is evaluated after integer promotion, so the
per-byte loop runs zero times in both cases, exactly one byte is read, its
value becomes the checksum, and the same handshake and checksum-reply
sequence follows — no wraparound iteration occurs. -/
theorem readFrame_zero_eq_one (input : Nat → Nat) :
    loopIters 0 = 0 ∧
    readBytesChecksum 0 input = readBytesChecksum 1 input ∧
    readBytesChecksum 0 input =
      [Ev.readB (input 0 % 256), Ev.ack 0, Ev.wFall, Ev.ack 1, Ev.wHigh,
       Ev.writeB (input 0 % 256)] := by
  have h0 : loopIters 0 = 0 := by decide
  have h1 : loopIters 1 = 0 := by decide
  have hm : input 0 % 256 % 256 = input 0 % 256 := by omega
  refine ⟨h0, by simp only [readBytesChecksum, h0, h1], ?_⟩
  simp [readBytesChecksum, h0, readLoop, hm]

end Fakelens
